import Mathlib

/-!
Verification development for the brainiak-tutorials repository
(notebooks 02-data-handling and 04-dimensionality-reduction).

The notebooks are linear sequences of calls into helper functions and
numerical-library routines.  Each definition below is a shallow embedding
of one such routine over exact arithmetic: data values are rationals, and
the reals enter only where a square root (a standard deviation) is
taken, since that operation leaves the rationals.  Matrices are lists of
columns: the notebooks z-score a time-by-voxel matrix over the time
axis, so a column is one voxel series.
-/

namespace Brainiak

/-! Part 1: z-scoring via sklearn preprocessing.StandardScaler
(notebook 02, section 4).  The notebook runs
`preprocessing.StandardScaler().fit_transform(maskedData)`.
Modelled from the spec: the StandardScaler implementation is not under
src/ (it is library code); the spec glossary defines z-scoring as
"normalization of data to zero mean and unit variance", and
StandardScaler documents that it centers each column by its mean and
divides by its population standard deviation, a zero standard deviation
being replaced by one (so a constant column maps to zeros). -/

/-- Mean of a column (0 for the empty column, as 0/0 = 0 in ℚ). -/
def colMean (xs : List ℚ) : ℚ := xs.sum / xs.length

/-- Population variance of a column. -/
def colVar (xs : List ℚ) : ℚ :=
  ((xs.map (fun x => (x - colMean xs) ^ 2)).sum) / xs.length

/-- The scale StandardScaler divides by: the population standard
deviation, with zero replaced by one (sklearn `_handle_zeros_in_scale`).
Real-valued because a standard deviation is a square root. -/
noncomputable def colScale (xs : List ℚ) : ℝ :=
  if Real.sqrt (colVar xs) = 0 then 1 else Real.sqrt (colVar xs)

/-- StandardScaler fit-then-transform on one column. -/
noncomputable def scalerTransformCol (xs : List ℚ) : List ℝ :=
  xs.map (fun x : ℚ => ((x : ℝ) - ((colMean xs : ℚ) : ℝ)) / colScale xs)

/-- StandardScaler fit_transform on a matrix given as its list of
columns (each column is one voxel series over time). -/
noncomputable def standardScalerFitTransform (cols : List (List ℚ)) : List (List ℝ) :=
  cols.map scalerTransformCol

/-- Mean of a real-valued (output) column. -/
noncomputable def rMean (xs : List ℝ) : ℝ := xs.sum / xs.length

/-- Population variance of a real-valued (output) column. -/
noncomputable def rVar (xs : List ℝ) : ℝ :=
  ((xs.map (fun x => (x - rMean xs) ^ 2)).sum) / xs.length

/-- Population standard deviation of a real-valued (output) column. -/
noncomputable def rStd (xs : List ℝ) : ℝ := Real.sqrt (rVar xs)

/-! Part 2: the evoked-response cell of notebook 02, section 4.2.
The cell shifts the face, scene and baseline onset indices forward by
`time_shift` to account for hemodynamic lag, filters only the baseline
indices against the array length, and then fancy-indexes `activity`. -/

/-- Embedding of `np.where(xs == v)[0]`: the positions at which the list
equals `v`. -/
def whereEq (xs : List ℤ) (v : ℤ) : List ℕ :=
  (List.range xs.length).filter (fun i => xs.getD i 0 = v)

/-- The hemodynamic-lag shift used in the cell (`time_shift = 2`). -/
def time_shift : ℕ := 2

/-- `face_labels = np.where(cond_labels == 1)[0] + time_shift`. -/
def face_labels (cond_labels : List ℤ) : List ℕ :=
  (whereEq cond_labels 1).map (fun i => i + time_shift)

/-- `scene_labels = np.where(cond_labels == 2)[0] + time_shift`. -/
def scene_labels (cond_labels : List ℤ) : List ℕ :=
  (whereEq cond_labels 2).map (fun i => i + time_shift)

/-- `baseline_labels = np.where(cond_labels == 0)[0] + time_shift`,
before the bounds filter. -/
def baseline_labels_raw (cond_labels : List ℤ) : List ℕ :=
  (whereEq cond_labels 0).map (fun i => i + time_shift)

/-- `baseline_labels = baseline_labels[baseline_labels < len(activity)]`:
only the baseline indices are filtered against the array length. -/
def baseline_labels (cond_labels : List ℤ) (activity : List ℚ) : List ℕ :=
  (baseline_labels_raw cond_labels).filter (fun i => i < activity.length)

/-- Numpy fancy indexing `activity[idxs]`: the selected values when every
index is in bounds, `none` for the IndexError that numpy raises
otherwise. -/
def fancyIndex (activity : List ℚ) (idxs : List ℕ) : Option (List ℚ) :=
  if idxs.all (fun i => i < activity.length) then
    some (idxs.map (fun i => activity.getD i 0))
  else none

/-! Part 3: applying an ROI mask (notebook 02, section 3:
`NiftiMasker(mask_img=mask).fit_transform(epi_data)`).
Modelled from the spec: the NiftiMasker implementation is not under src/
(it is library code); the spec glossary defines an ROI as "a spatial
mask selecting a subset of voxels", and fit_transform returns the
time-by-voxel matrix of the voxels inside the mask.  The EPI image is
given voxel-major: `epi` lists the time series of every voxel of the
grid, and `mask` holds one Boolean per voxel of the same grid. -/

/-- NiftiMasker fit_transform: the output columns (voxel time series)
are the voxels at which the mask is true, in voxel order. -/
def niftiMaskerFitTransform (epi : List (List ℚ)) (mask : List Bool) : List (List ℚ) :=
  ((epi.zip mask).filter (fun p => p.2)).map (fun p => p.1)

/-! Part 4: cross-validation folds (notebook 04, section 4.1:
`ps = PredefinedSplit(run_ids)` and `ps.split(...)`).
Modelled from the spec: the PredefinedSplit implementation is not under
src/ (it is library code); it documents that the fold values are the
distinct entries of `test_fold` other than -1, that each fold tests
exactly the positions carrying its value, and that every other position
(a -1 position in particular) is in the training set. -/

/-- The distinct fold values: every distinct entry except -1
(np.unique then removal of -1; the order of the folds is immaterial to
the claims, so the distinct values are kept in first-occurrence
order). -/
def unique_folds (test_fold : List ℤ) : List ℤ :=
  test_fold.dedup.filter (fun v => v ≠ -1)

/-- The test indices of the fold with value `f`. -/
def ps_test (test_fold : List ℤ) (f : ℤ) : List ℕ :=
  (List.range test_fold.length).filter (fun i => test_fold.getD i 0 = f)

/-- The train indices of the fold with value `f`: every position not in
the test set. -/
def ps_train (test_fold : List ℤ) (f : ℤ) : List ℕ :=
  (List.range test_fold.length).filter (fun i => test_fold.getD i 0 ≠ f)

/-- `PredefinedSplit(test_fold).split()`: one (train, test) pair per
fold value. -/
def ps_split (test_fold : List ℤ) : List (List ℕ × List ℕ) :=
  (unique_folds test_fold).map (fun f => (ps_train test_fold f, ps_test test_fold f))

/-! Part 5: blockwise sampling (notebook 04, section 1:
`bold_data, labels, run_ids = blockwise_sampling(bold_data_raw,
labels_raw, run_ids_raw)`).
Modelled from the spec: utils.blockwise_sampling is not under src/ (the
notebook imports it from the utils module); the spec lists it as the
"block-average" preprocessing helper, and the notebook describes it as
down-sampling the data to be blockwise rather than trialwise, taking
the average value of the activity within a block as the observation.
Trials are rows; consecutive trials sharing one label and one run id
form a block. -/

/-- Pointwise sum of two data rows (numpy vector addition). -/
def vecAdd (a b : List ℚ) : List ℚ := List.zipWith (· + ·) a b

/-- Mean row of a block of rows (numpy mean over the trial axis). -/
def vecMean : List (List ℚ) → List ℚ
  | [] => []
  | r :: rs => (rs.foldl vecAdd r).map (fun x => x / ((rs.length + 1 : ℕ) : ℚ))

/-- Group consecutive entries sharing a key into maximal runs. -/
def groupByKey {κ α : Type} [DecidableEq κ] : List (κ × α) → List (κ × List α)
  | [] => []
  | (k, a) :: rest =>
    match groupByKey rest with
    | [] => [(k, [a])]
    | (k2, as) :: gs =>
      if k = k2 then (k, a :: as) :: gs else (k, [a]) :: (k2, as) :: gs

/-- blockwise_sampling: one output row, label and run id per maximal run
of consecutive trials sharing a (label, run id) key; the output row is
the mean of the run of trialwise rows.  Polymorphic in the label and
run id types, which the dynamically typed source leaves open. -/
def blockwise_sampling {κ₁ κ₂ : Type} [DecidableEq κ₁] [DecidableEq κ₂]
    (bold_data_raw : List (List ℚ))
    (labels_raw : List κ₁) (run_ids_raw : List κ₂) :
    List (List ℚ) × List κ₁ × List κ₂ :=
  let groups := groupByKey ((labels_raw.zip run_ids_raw).zip bold_data_raw)
  (groups.map (fun g => vecMean g.2),
   groups.map (fun g => g.1.1),
   groups.map (fun g => g.1.2))

/-! Part 6: data loader helpers and the remaining preprocessing helpers
used by the notebook-04 preprocessing cell.
Modelled from the spec: the utils module holding them is not under src/
(the notebooks import them from utils); the spec describes the loaders
as reading raw per-subject timing and imaging files from disk into
numeric arrays (pure I/O convenience wrappers), and the preprocessing
helpers as short, stateless numeric transforms (reshape, shift-align
for hemodynamic lag, block-average, z-score). -/

/-- The program world outside the notebook variables: the files on disk
(timing/label files, masked EPI data files, ROI mask files). -/
structure World where
  labelFiles : String → List (List ℚ)
  epiFiles : String → List (List ℚ)
  maskFiles : String → List Bool

/-- load_vdc_stim_labels(sub): reads the stimulus label matrix of a
subject and returns it together with the world it leaves behind. -/
def load_vdc_stim_labels (w : World) (sub : String) :
    List (List ℚ) × World :=
  (w.labelFiles sub, w)

/-- load_vdc_mask(ROI_name, sub): reads a subject ROI mask. -/
def load_vdc_mask (w : World) (ROI_name sub : String) : List Bool × World :=
  (w.maskFiles (sub ++ "/" ++ ROI_name), w)

/-- load_vdc_epi_data(sub, run): reads the EPI image of one run. -/
def load_vdc_epi_data (w : World) (sub : String) (run : ℕ) :
    List (List ℚ) × World :=
  (w.epiFiles (sub ++ "/run" ++ toString run), w)

/-- load_labels(directory, subject_name): reads the stimulus label
matrix of a subject from a data directory. -/
def load_labels (w : World) (directory subject_name : String) :
    List (List ℚ) × World :=
  (w.labelFiles (directory ++ "/" ++ subject_name), w)

/-- load_data(directory, subject_name, mask_name): reads the masked EPI
data (voxels by TRs) and the mask of a subject. -/
def load_data (w : World) (directory subject_name mask_name : String) :
    (List (List ℚ) × List Bool) × World :=
  ((w.epiFiles (directory ++ "/" ++ subject_name ++ "/" ++ mask_name),
    w.maskFiles (directory ++ "/" ++ subject_name ++ "/" ++ mask_name)), w)

/-- The vdc data directory constant imported from utils. -/
def vdc_data_dir : String := "vdc"

/-- The number of localizer runs of the vdc dataset. -/
def vdc_n_runs : ℕ := 3

/-- The repetition time of the vdc dataset, in seconds. -/
def vdc_TR : ℚ := 3 / 2

/-- The assumed hemodynamic lag, in seconds. -/
def vdc_hrf_lag : ℚ := 9 / 2

/-- The TR index, within the concatenated runs, of a stimulus with the
given (1-based) run number and onset time in seconds. -/
def stimTR (TR : ℚ) (TRs_run : ℕ) (runv onset : ℚ) : ℤ :=
  ⌊onset / TR⌋ + (⌊runv⌋ - 1) * TRs_run

/-- Modelled from the spec: utils.label2TR is not under src/.  Converts
the stimulus timing matrix (row 0 labels, row 2 onset seconds, row 5
1-based run numbers) into one stimulus label per TR of the concatenated
runs, 0 at TRs where no stimulus starts. -/
def label2TR (stim_label : List (List ℚ)) (num_runs : ℕ) (TR : ℚ)
    (TRs_run : ℕ) : List ℚ :=
  (List.range (num_runs * TRs_run)).map (fun t =>
    (List.range (stim_label.getD 0 []).length).foldl (fun acc j =>
      if stimTR TR TRs_run ((stim_label.getD 5 []).getD j 0)
          ((stim_label.getD 2 []).getD j 0) = (t : ℤ)
      then (stim_label.getD 0 []).getD j 0 else acc) 0)

/-- Modelled from the spec: utils.shift_timing is not under src/.  The
shift-align helper delays the TR label vector by shift_size TRs to
account for hemodynamic lag, padding with zeros and keeping the
length. -/
def shift_timing (label_TR : List ℚ) (TR_shift_size : ℕ) : List ℚ :=
  (List.replicate TR_shift_size 0 ++ label_TR).take label_TR.length

/-- The voxel pattern at TR t (one column of the voxel-by-TR data). -/
def epiColumn (epi : List (List ℚ)) (t : ℕ) : List ℚ :=
  epi.map (fun voxel => voxel.getD t 0)

/-- Modelled from the spec: utils.reshape_data is not under src/.  The
reshape helper keeps the TRs carrying a nonzero (shifted) label and
returns their voxel patterns as rows together with those labels. -/
def reshape_data (label_TR_shifted : List ℚ) (epi : List (List ℚ)) :
    List (List ℚ) × List ℚ :=
  let sel := (List.range label_TR_shifted.length).filter
    (fun t => label_TR_shifted.getD t 0 ≠ 0)
  (sel.map (fun t => epiColumn epi t), sel.map (fun t => label_TR_shifted.getD t 0))

/-- Modelled from the spec: utils.normalize is not under src/.  The
z-score helper standardizes each voxel within each run: entry (i, j) is
centered and scaled by the mean and standard deviation of voxel j over
the rows belonging to the run of row i. -/
noncomputable def normalize (bold : List (List ℚ)) (run_ids : List ℚ) :
    List (List ℝ) :=
  (List.range bold.length).map (fun i =>
    (List.range (bold.getD i []).length).map (fun j =>
      let runCol := ((List.range bold.length).filter
        (fun t => run_ids.getD t 0 = run_ids.getD i 0)).map
        (fun t => (bold.getD t []).getD j 0)
      (((bold.getD i []).getD j 0 : ℚ) - ((colMean runCol : ℚ) : ℝ)) / colScale runCol))

/-- The notebook-04 preprocessing cell variables (every name the cell
assigns). -/
structure PipeVars where
  stim_label_allruns : List (List ℚ)
  run_ids_raw : List ℚ
  epi_mask_data_all : List (List ℚ)
  TRs_run : ℕ
  stim_label_TR : List ℚ
  stim_label_TR_shifted : List ℚ
  bold_data_raw : List (List ℚ)
  labels_raw : List ℚ
  bold_normalized_raw : List (List ℝ)
  bold_data : List (List ℚ)
  labels : List ℚ
  run_ids : List ℚ
  bold_normalized : List (List ℝ)

/-- The notebook-04 preprocessing cell: loads the labels and data of the
subject and runs the whole helper pipeline (label2TR, shift_timing,
reshape_data, normalize, blockwise_sampling), assigning every cell
variable.  The world is threaded so that effects on it are visible. -/
noncomputable def runPreprocCell (w : World) (sub : String) (_v : PipeVars) :
    World × PipeVars :=
  let shift_size : ℕ := (⌊vdc_hrf_lag / vdc_TR⌋).toNat
  let p1 := load_labels w vdc_data_dir sub
  let stim := p1.1
  let w1 := p1.2
  let run_ids_raw := (stim.getD 5 []).map (fun x => x - 1)
  let p2 := load_data w1 vdc_data_dir sub "FFA"
  let epi := p2.1.1
  let w2 := p2.2
  let TRs_run := (epi.getD 0 []).length / vdc_n_runs
  let stim_label_TR := label2TR stim vdc_n_runs vdc_TR TRs_run
  let stim_label_TR_shifted := shift_timing stim_label_TR shift_size
  let pr := reshape_data stim_label_TR_shifted epi
  let bold_data_raw := pr.1
  let labels_raw := pr.2
  let bold_normalized_raw := normalize bold_data_raw run_ids_raw
  let pb := blockwise_sampling bold_data_raw labels_raw run_ids_raw
  let bold_data := pb.1
  let labels := pb.2.1
  let run_ids := pb.2.2
  let bold_normalized := normalize bold_data run_ids
  (w2,
   { stim_label_allruns := stim, run_ids_raw := run_ids_raw,
     epi_mask_data_all := epi, TRs_run := TRs_run,
     stim_label_TR := stim_label_TR,
     stim_label_TR_shifted := stim_label_TR_shifted,
     bold_data_raw := bold_data_raw, labels_raw := labels_raw,
     bold_normalized_raw := bold_normalized_raw,
     bold_data := bold_data, labels := labels, run_ids := run_ids,
     bold_normalized := bold_normalized })

/-! Part 7: the notebook-02 cells around Exercise 7, and the notebook as
a sequential machine. -/

/-- The notebook-02 variables touched by the z-scoring and Exercise 7
cells: the masked data, its z-scored version, the student-assigned
normalized data, the printed output and the produced plots. -/
structure NB2State where
  maskedData : List (List ℚ)
  maskedData_zscore : List (List ℝ)
  maskedData_normalized : Option (List (List ℚ))
  printed : List String
  plots : List (List ℚ)

/-- The z-scoring cell: assigns maskedData_zscore from maskedData (the
three equivalent StandardScaler invocations of the cell all produce this
value). -/
noncomputable def zscoreCell (s : NB2State) : NB2State :=
  { s with maskedData_zscore := standardScalerFitTransform s.maskedData }

/-- The Exercise 7 cell as shipped: assigns None to
maskedData_normalized. -/
def exercise7Cell (s : NB2State) : NB2State :=
  { s with maskedData_normalized := none }

/-- The reminder printed when Exercise 7 was left unmodified. -/
def reminder_message : String :=
  "Please assign Z-score values in the previous step to maskedData_normalized."

/-- The plotting cell after Exercise 7: when maskedData_normalized is
not None it plots its first voxel column and first time row (an
IndexError when the array is empty); otherwise it only prints the
reminder. -/
def plotNormalizedCell (s : NB2State) : Except String NB2State :=
  match s.maskedData_normalized with
  | some d =>
    if 0 < d.length ∧ 0 < (d.getD 0 []).length then
      Except.ok { s with
        plots := s.plots ++ [d.map (fun row => row.getD 0 0), d.getD 0 []] }
    else Except.error "IndexError"
  | none => Except.ok { s with printed := s.printed ++ [reminder_message] }

/-- The plotting cell as a total function: the state is returned
unchanged but for the recorded error when the cell raises. -/
def plotNormalizedCellTotal (s : NB2State) : NB2State :=
  match plotNormalizedCell s with
  | Except.ok s2 => s2
  | Except.error e => { s with printed := s.printed ++ [e] }

/-- The notebook-02 cell sequence around Exercise 7. -/
noncomputable def nb02Cells : List (NB2State → NB2State) :=
  [zscoreCell, exercise7Cell, plotNormalizedCellTotal]

/-- One sequential execution step of the notebook: the cell at the
program counter runs on the current variables and the counter
advances. -/
inductive NBStep : (ℕ × NB2State) → (ℕ × NB2State) → Prop where
  | run : ∀ (pc : ℕ) (s : NB2State), pc < nb02Cells.length →
      NBStep (pc, s) (pc + 1, (nb02Cells.getD pc id) s)

/-! Part 8: the two bounded loops named by the termination claim. -/

/-- The scatter series of one condition (notebook 02: the points of
`time_secs` whose label equals the condition label). -/
def scatterSeries (label_keys time_secs labels : List ℚ) (i_cond : ℕ) :
    List (ℚ × ℚ) :=
  (time_secs.zip labels).filter (fun p => p.2 = label_keys.getD i_cond 0)

/-- The notebook-02 condition-plot loop
(`for i_cond in range(n_conditions)`), as the Python loop runs: an
accumulator extended once per iteration. -/
def condPlotLoop (label_keys time_secs labels : List ℚ) :
    List (List (ℚ × ℚ)) :=
  (List.range label_keys.length).foldl
    (fun acc i => acc ++ [scatterSeries label_keys time_secs labels i]) []

/-- The PCA dimensions plotted by notebook 04 (`components_to_plot`). -/
def components_to_plot : List ℕ := [0, 1, 2, 19]

/-- `n_plots = 4` of the notebook-04 histogram cell. -/
def n_plots : ℕ := 4

/-- One PCA component column of the projected data. -/
def pcaColumn (bold_pca : List (List ℚ)) (c : ℕ) : List ℚ :=
  bold_pca.map (fun row => row.getD c 0)

/-- The notebook-04 histogram loop (`for i in range(n_plots)`). -/
def pcaHistLoop (bold_pca : List (List ℚ)) : List (List ℚ) :=
  (List.range n_plots).foldl
    (fun acc i => acc ++ [pcaColumn bold_pca (components_to_plot.getD i 0)]) []

end Brainiak

namespace Brainiak

/-! Helper lemmas about sums, means and variances. -/

theorem sum_centered (xs : List ℚ) (m c : ℝ) :
    ((xs.map (fun x : ℚ => ((x : ℝ) - m) / c)).sum)
      = (((xs.sum : ℚ) : ℝ) - xs.length * m) / c := by
  induction xs with
  | nil => simp
  | cons a l ih =>
    simp only [List.map_cons, List.sum_cons, List.sum_cons, List.length_cons, ih]
    push_cast
    ring

theorem sum_centered_sq (xs : List ℚ) (m c : ℝ) :
    ((xs.map (fun x : ℚ => (((x : ℝ) - m) / c - 0) ^ 2)).sum)
      = ((xs.map (fun x : ℚ => ((x : ℝ) - m) ^ 2)).sum) / c ^ 2 := by
  induction xs with
  | nil => simp
  | cons a l ih =>
    simp only [List.map_cons, List.sum_cons, ih]
    ring

theorem sum_sq_cast (xs : List ℚ) (m : ℚ) :
    (xs.map (fun x : ℚ => ((x : ℝ) - (m : ℝ)) ^ 2)).sum
      = (((xs.map (fun x => (x - m) ^ 2)).sum : ℚ) : ℝ) := by
  induction xs with
  | nil => simp
  | cons a l ih =>
    simp only [List.map_cons, List.sum_cons, ih]
    push_cast
    ring

theorem rMean_scalerTransformCol (xs : List ℚ) :
    rMean (scalerTransformCol xs) = 0 := by
  rcases eq_or_ne xs [] with h | h
  · subst h; simp [scalerTransformCol, rMean]
  · have hn : (xs.length : ℝ) ≠ 0 := by
      exact_mod_cast Nat.cast_ne_zero.mpr (by simpa [List.length_eq_zero] using h)
    rw [rMean, scalerTransformCol, sum_centered, List.length_map]
    have hm : ((colMean xs : ℚ) : ℝ) = ((xs.sum : ℚ) : ℝ) / (xs.length : ℝ) := by
      rw [colMean]; push_cast; ring
    rw [hm]
    have hz : ((xs.sum : ℚ) : ℝ) - (xs.length : ℝ) * (((xs.sum : ℚ) : ℝ) / (xs.length : ℝ)) = 0 := by
      field_simp
    rw [hz, zero_div, zero_div]

theorem colVar_nonneg (xs : List ℚ) : 0 ≤ colVar xs := by
  unfold colVar
  apply div_nonneg
  · apply List.sum_nonneg
    intro x hx
    rcases List.mem_map.mp hx with ⟨a, _, rfl⟩
    positivity
  · positivity

theorem rVar_scalerTransformCol (xs : List ℚ) :
    rVar (scalerTransformCol xs) = ((colVar xs : ℚ) : ℝ) / (colScale xs) ^ 2 := by
  rw [rVar, rMean_scalerTransformCol, scalerTransformCol, List.map_map, List.length_map]
  have hcomp : ((fun y => (y - 0) ^ 2) ∘ fun x : ℚ => ((x : ℝ) - ((colMean xs : ℚ) : ℝ)) / colScale xs)
      = fun x : ℚ => (((x : ℝ) - ((colMean xs : ℚ) : ℝ)) / colScale xs - 0) ^ 2 := rfl
  rw [hcomp, sum_centered_sq, sum_sq_cast, colVar]
  push_cast
  ring

theorem colScale_of_var_ne (xs : List ℚ) (h : colVar xs ≠ 0) :
    (colScale xs) ^ 2 = ((colVar xs : ℚ) : ℝ) ∧ colScale xs ≠ 0 := by
  have hpos : (0 : ℝ) < ((colVar xs : ℚ) : ℝ) := by
    have h0 : (0 : ℚ) ≤ colVar xs := colVar_nonneg xs
    have hlt : (0 : ℚ) < colVar xs := lt_of_le_of_ne h0 (Ne.symm h)
    exact_mod_cast hlt
  have hsqrt : Real.sqrt ((colVar xs : ℚ) : ℝ) ≠ 0 := by
    intro hz
    have hle := Real.sqrt_eq_zero (le_of_lt hpos) |>.mp hz
    exact absurd hle (ne_of_gt hpos)
  have hd : colScale xs = Real.sqrt ((colVar xs : ℚ) : ℝ) := by
    rw [colScale, if_neg hsqrt]
  constructor
  · rw [hd]
    exact Real.sq_sqrt (le_of_lt hpos)
  · rw [hd]
    exact hsqrt

theorem colScale_of_var_zero (xs : List ℚ) (h : colVar xs = 0) :
    colScale xs = 1 := by
  rw [colScale, h]
  simp

theorem rStd_scalerTransformCol_of_ne (xs : List ℚ) (h : colVar xs ≠ 0) :
    rStd (scalerTransformCol xs) = 1 := by
  rcases colScale_of_var_ne xs h with ⟨hsq, _⟩
  rw [rStd, rVar_scalerTransformCol, hsq, div_self, Real.sqrt_one]
  intro hz
  exact h (by exact_mod_cast hz)

theorem rStd_scalerTransformCol_of_zero (xs : List ℚ) (h : colVar xs = 0) :
    rStd (scalerTransformCol xs) = 0 := by
  rw [rStd, rVar_scalerTransformCol, colScale_of_var_zero xs h, h]
  simp

/-! Lemmas and claim theorems for the evoked-response cell. -/

theorem fancyIndex_isSome_iff (a : List ℚ) (l : List ℕ) :
    (fancyIndex a l).isSome = true ↔ ∀ i ∈ l, i < a.length := by
  unfold fancyIndex
  split
  next h =>
    simp only [Option.isSome_some, true_iff]
    intro i hi
    have := List.all_eq_true.mp h i hi
    exact of_decide_eq_true this
  next h =>
    refine ⟨fun hfalse => absurd hfalse (by simp), fun hall => absurd ?_ h⟩
    exact List.all_eq_true.mpr (fun i hi => decide_eq_true (hall i hi))

/-- Claim C2 (corrected): after the hemodynamic shift, indexing the
activity array with the filtered baseline indices always succeeds, while
indexing with the face (resp. scene) indices succeeds if and only if
every shifted face (resp. scene) index is below the array length, a
condition the cell does not enforce (out of bounds means the indexing
raises). -/
theorem evoked_indexing_bounds (cond_labels : List ℤ) (activity : List ℚ)
    (_hlen : cond_labels.length = activity.length) :
    (fancyIndex activity (baseline_labels cond_labels activity)).isSome = true ∧
    ((fancyIndex activity (face_labels cond_labels)).isSome = true ↔
      ∀ i ∈ face_labels cond_labels, i < activity.length) ∧
    ((fancyIndex activity (scene_labels cond_labels)).isSome = true ↔
      ∀ i ∈ scene_labels cond_labels, i < activity.length) := by
  refine ⟨?_, fancyIndex_isSome_iff activity (face_labels cond_labels),
    fancyIndex_isSome_iff activity (scene_labels cond_labels)⟩
  rw [fancyIndex_isSome_iff]
  intro i hi
  have h2 := (List.mem_filter.mp hi).2
  exact of_decide_eq_true h2

/-- Claim C2 witness: a concrete input on which all three indexings
succeed. -/
theorem evoked_indexing_bounds_witness :
    (fancyIndex ([1, 2, 3, 4] : List ℚ)
      (baseline_labels [1, 2, 0, 0] [1, 2, 3, 4])).isSome = true ∧
    (fancyIndex ([1, 2, 3, 4] : List ℚ) (face_labels [1, 2, 0, 0])).isSome = true ∧
    (fancyIndex ([1, 2, 3, 4] : List ℚ) (scene_labels [1, 2, 0, 0])).isSome = true :=
  ⟨(evoked_indexing_bounds [1, 2, 0, 0] [1, 2, 3, 4] (by decide)).1,
   (evoked_indexing_bounds [1, 2, 0, 0] [1, 2, 3, 4] (by decide)).2.1.mpr (by decide),
   (evoked_indexing_bounds [1, 2, 0, 0] [1, 2, 3, 4] (by decide)).2.2.mpr (by decide)⟩

/-- Claim C2 counterexample: for cond_labels = [0, 1] and activity =
[0, 0] (equal lengths), the shifted face index 3 is out of bounds and
activity[face_labels] raises, so the claim as stated is false. -/
theorem evoked_indexing_counterexample :
    ([0, 1] : List ℤ).length = ([0, 0] : List ℚ).length ∧
    fancyIndex ([0, 0] : List ℚ) (face_labels [0, 1]) = none := by decide

/-! Lemmas and claim theorems for the ROI masking step. -/

theorem niftiMasker_mem (epi : List (List ℚ)) (mask : List Bool) :
    ∀ col ∈ niftiMaskerFitTransform epi mask,
      ∃ v, v < epi.length ∧ mask.getD v false = true ∧ col = epi.getD v [] := by
  induction epi generalizing mask with
  | nil => intro col hcol; simp [niftiMaskerFitTransform] at hcol
  | cons e es ih =>
    intro col hcol
    cases mask with
    | nil => simp [niftiMaskerFitTransform] at hcol
    | cons b bs =>
      cases b with
      | true =>
        simp only [niftiMaskerFitTransform] at hcol ih
        simp only [List.zip_cons_cons, List.filter_cons, if_pos, List.map_cons,
          List.mem_cons] at hcol
        rcases hcol with h | h
        · exact ⟨0, by simp, by simp, by simp [h]⟩
        · rcases ih bs col h with ⟨v, hv, hm, hc⟩
          exact ⟨v + 1, by simpa using hv, by simpa using hm, by simpa using hc⟩
      | false =>
        simp only [niftiMaskerFitTransform] at hcol ih
        simp only [List.zip_cons_cons, List.filter_cons, Bool.false_eq_true,
          if_false] at hcol
        rcases ih bs col hcol with ⟨v, hv, hm, hc⟩
        exact ⟨v + 1, by simpa using hv, by simpa using hm, by simpa using hc⟩

theorem niftiMasker_length (epi : List (List ℚ)) (mask : List Bool)
    (hlen : mask.length = epi.length) :
    (niftiMaskerFitTransform epi mask).length = mask.countP (fun b => b) := by
  induction epi generalizing mask with
  | nil =>
    cases mask with
    | nil => simp [niftiMaskerFitTransform]
    | cons b bs => simp at hlen
  | cons e es ih =>
    cases mask with
    | nil => simp at hlen
    | cons b bs =>
      have hlen2 : bs.length = es.length := by simpa using hlen
      cases b with
      | true =>
        simp only [niftiMaskerFitTransform, List.zip_cons_cons, List.filter_cons,
          List.countP_cons] at *
        simpa using ih bs hlen2
      | false =>
        simp only [niftiMaskerFitTransform, List.zip_cons_cons, List.filter_cons,
          List.countP_cons] at *
        simpa using ih bs hlen2

/-- Claim C5: applying an ROI mask returns a matrix selecting a subset of
the image voxels: every output column is the time series of a voxel
inside the mask, the number of columns equals the number of mask voxels
(one column per mask voxel, in voxel order), and it is at most the total
number of voxels. -/
theorem niftiMasker_selects_mask_voxels (epi : List (List ℚ)) (mask : List Bool)
    (hlen : mask.length = epi.length) :
    (∀ col ∈ niftiMaskerFitTransform epi mask,
      ∃ v, v < epi.length ∧ mask.getD v false = true ∧ col = epi.getD v []) ∧
    (niftiMaskerFitTransform epi mask).length = mask.countP (fun b => b) ∧
    (niftiMaskerFitTransform epi mask).length ≤ epi.length := by
  refine ⟨niftiMasker_mem epi mask, niftiMasker_length epi mask hlen, ?_⟩
  calc (niftiMaskerFitTransform epi mask).length
      = (((epi.zip mask).filter (fun p => p.2))).length := by
        simp [niftiMaskerFitTransform]
    _ ≤ (epi.zip mask).length := List.length_filter_le _ _
    _ ≤ epi.length := by rw [List.length_zip]; exact Nat.min_le_left _ _

/-- Claim C5 witness: a concrete image of three voxels and a mask
selecting two of them. -/
theorem niftiMasker_selects_mask_voxels_witness :
    (∀ col ∈ niftiMaskerFitTransform [[1, 2], [3, 4], [5, 6]] [true, false, true],
      ∃ v, v < ([[1, 2], [3, 4], [5, 6]] : List (List ℚ)).length ∧
        ([true, false, true].getD v false) = true ∧
        col = ([[1, 2], [3, 4], [5, 6]] : List (List ℚ)).getD v []) ∧
    (niftiMaskerFitTransform [[1, 2], [3, 4], [5, 6]] [true, false, true]).length
      = ([true, false, true] : List Bool).countP (fun b => b) ∧
    (niftiMaskerFitTransform [[1, 2], [3, 4], [5, 6]] [true, false, true]).length
      ≤ ([[1, 2], [3, 4], [5, 6]] : List (List ℚ)).length :=
  niftiMasker_selects_mask_voxels [[1, 2], [3, 4], [5, 6]] [true, false, true] (by decide)

/-! Claim theorems for the PredefinedSplit cross-validation folds. -/

/-- Claim C6 (amended): each fold tests exactly the positions carrying
its value and trains on all remaining positions (whatever their sign),
train and test are disjoint, and there is one fold per distinct run id
other than -1. -/
theorem predefined_split_folds (test_fold : List ℤ) :
    (unique_folds test_fold).Nodup ∧
    (∀ u : ℤ, u ∈ unique_folds test_fold ↔ u ∈ test_fold ∧ u ≠ -1) ∧
    (∀ u ∈ unique_folds test_fold, ∀ i : ℕ,
      (i ∈ ps_test test_fold u ↔ i < test_fold.length ∧ test_fold.getD i 0 = u) ∧
      (i ∈ ps_train test_fold u ↔ i < test_fold.length ∧ test_fold.getD i 0 ≠ u) ∧
      ¬(i ∈ ps_train test_fold u ∧ i ∈ ps_test test_fold u)) ∧
    ps_split test_fold
      = (unique_folds test_fold).map (fun f => (ps_train test_fold f, ps_test test_fold f)) := by
  refine ⟨(test_fold.nodup_dedup).filter _, ?_, ?_, rfl⟩
  · intro u
    simp [unique_folds, List.mem_filter, List.mem_dedup]
  · intro u _ i
    refine ⟨?_, ?_, ?_⟩
    · simp [ps_test, List.mem_filter, List.mem_range]
    · simp [ps_train, List.mem_filter, List.mem_range]
    · rintro ⟨h1, h2⟩
      have e1 := (List.mem_filter.mp h1).2
      have e2 := (List.mem_filter.mp h2).2
      have d1 := of_decide_eq_true e1
      have d2 := of_decide_eq_true e2
      exact d1 d2

/-- Claim C6 witness: on run ids [0, 1, 1] and fold 1, position 0 trains,
position 1 tests, and position 1 is not in both sets. -/
theorem predefined_split_folds_witness :
    (0 : ℕ) ∈ ps_train [0, 1, 1] 1 ∧ (1 : ℕ) ∈ ps_test [0, 1, 1] 1 ∧
    ¬((1 : ℕ) ∈ ps_train [0, 1, 1] 1 ∧ (1 : ℕ) ∈ ps_test [0, 1, 1] 1) :=
  ⟨((predefined_split_folds [0, 1, 1]).2.2.1 1 (by decide) 0).2.1.mpr (by decide),
   ((predefined_split_folds [0, 1, 1]).2.2.1 1 (by decide) 1).1.mpr (by decide),
   ((predefined_split_folds [0, 1, 1]).2.2.1 1 (by decide) 1).2.2⟩

/-- Claim C6 counterexample: on run_ids = [-2, -1, 0] the split yields two
folds (for the values -2 and 0) though only one distinct non-negative run
id exists, and the train set of fold 0 contains position 0, whose run id
is negative; both contradict the claim as stated. -/
theorem predefined_split_counterexample :
    (ps_split ([-2, -1, 0] : List ℤ)).length = 2 ∧
    (0 : ℕ) ∈ ps_train ([-2, -1, 0] : List ℤ) 0 ∧
    ([-2, -1, 0] : List ℤ).getD 0 0 < 0 := by decide

/-! Claim theorems for the z-scoring step. -/

/-- Claim C1 (amended): over exact arithmetic, every column of the
z-scored matrix has mean exactly zero; a column whose input values are
not all equal (nonzero variance) has standard deviation exactly one,
while a constant input column is mapped to zeros and has standard
deviation zero, not one, because StandardScaler replaces its zero scale
by one. -/
theorem zscore_mean_zero_std_one (M : List (List ℚ)) (xs : List ℚ) (hmem : xs ∈ M) :
    scalerTransformCol xs ∈ standardScalerFitTransform M ∧
    rMean (scalerTransformCol xs) = 0 ∧
    (colVar xs ≠ 0 → rStd (scalerTransformCol xs) = 1) ∧
    (colVar xs = 0 → rStd (scalerTransformCol xs) = 0) :=
  ⟨List.mem_map_of_mem scalerTransformCol hmem,
   rMean_scalerTransformCol xs,
   fun h => rStd_scalerTransformCol_of_ne xs h,
   fun h => rStd_scalerTransformCol_of_zero xs h⟩

/-- Claim C1 witness: the column [1, -1] (variance one) is mapped to a
column of mean zero and standard deviation one. -/
theorem zscore_mean_zero_std_one_witness :
    scalerTransformCol [1, -1] ∈ standardScalerFitTransform [[1, -1]] ∧
    rMean (scalerTransformCol [1, -1]) = 0 ∧
    rStd (scalerTransformCol [1, -1]) = 1 :=
  ⟨(zscore_mean_zero_std_one [[1, -1]] [1, -1] (by simp)).1,
   (zscore_mean_zero_std_one [[1, -1]] [1, -1] (by simp)).2.1,
   (zscore_mean_zero_std_one [[1, -1]] [1, -1] (by simp)).2.2.1 (by
     norm_num [colVar, colMean])⟩

/-- Claim C1 counterexample: the constant column [5, 5] is z-scored to a
column of standard deviation zero, not one, so the claim as stated fails
on a column whose values are all equal. -/
theorem zscore_counterexample :
    scalerTransformCol [5, 5] ∈ standardScalerFitTransform [[5, 5]] ∧
    rStd (scalerTransformCol [5, 5]) ≠ 1 := by
  constructor
  · exact List.mem_map_of_mem scalerTransformCol (by simp)
  · have hv : colVar ([5, 5] : List ℚ) = 0 := by norm_num [colVar, colMean]
    rw [rStd_scalerTransformCol_of_zero [5, 5] hv]
    norm_num

/-! Lemmas and claim theorems for blockwise sampling. -/

theorem zip_replicate_replicate {α β : Type} (n : ℕ) (a : α) (b : β) :
    (List.replicate n a).zip (List.replicate n b) = List.replicate n (a, b) := by
  induction n with
  | zero => simp
  | succ m ih => simp [List.replicate_succ, ih]

theorem zip_replicate_left {α β : Type} (a : α) (l : List β) :
    (List.replicate l.length a).zip l = l.map (fun x => (a, x)) := by
  induction l with
  | nil => simp
  | cons x xs ih => simp [List.replicate_succ, ih]

theorem zip_flatMap {σ α β : Type} (L : List σ) (f : σ → List α) (g : σ → List β)
    (h : ∀ s, (f s).length = (g s).length) :
    (L.flatMap f).zip (L.flatMap g) = L.flatMap (fun s => (f s).zip (g s)) := by
  induction L with
  | nil => simp
  | cons s L ih =>
    simp only [List.flatMap_cons]
    rw [List.zip_append (h s), ih]

theorem groupByKey_cons_eq {κ α : Type} [DecidableEq κ] (k : κ) (a : α)
    (rest : List (κ × α)) :
    groupByKey ((k, a) :: rest)
      = match groupByKey rest with
        | [] => [(k, [a])]
        | (k2, as) :: gs =>
          if k = k2 then (k, a :: as) :: gs else (k, [a]) :: (k2, as) :: gs := rfl

theorem groupByKey_cons_headkey {κ α : Type} [DecidableEq κ] (k : κ) (a : α)
    (rest : List (κ × α)) :
    ∃ as gs, groupByKey ((k, a) :: rest) = (k, as) :: gs := by
  rcases hg : groupByKey rest with _ | ⟨⟨k2, bs⟩, gs⟩
  · exact ⟨[a], [], by simp [groupByKey, hg]⟩
  · by_cases hk : k = k2
    · exact ⟨a :: bs, gs, by simp [groupByKey, hg, hk]⟩
    · exact ⟨[a], (k2, bs) :: gs, by simp [groupByKey, hg, hk]⟩

theorem groupByKey_chunk {κ α : Type} [DecidableEq κ] (k : κ) (a : α) (as : List α)
    (rest : List (κ × α)) (hrest : ∀ p ∈ rest.head?, p.1 ≠ k) :
    groupByKey ((a :: as).map (fun x => (k, x)) ++ rest)
      = (k, a :: as) :: groupByKey rest := by
  induction as generalizing a with
  | nil =>
    simp only [List.map_cons, List.map_nil, List.cons_append, List.nil_append]
    cases rest with
    | nil => simp [groupByKey]
    | cons p rest2 =>
      obtain ⟨as1, gs1, he⟩ := groupByKey_cons_headkey p.1 p.2 rest2
      have hep : (p.1, p.2) = p := Prod.mk.eta
      rw [hep] at he
      have hne : k ≠ p.1 := by
        intro hk
        exact hrest p (by simp) hk.symm
      rw [groupByKey_cons_eq, he]
      simp only [hne, if_false]
  | cons a2 as2 ih =>
    have ih2 := ih a2
    simp only [List.map_cons, List.cons_append] at ih2 ⊢
    rw [groupByKey_cons_eq, ih2]
    simp

theorem flatten_head_key {κ α : Type} (k : κ) (bs : List (κ × List α))
    (hne : ∀ b ∈ bs, b.2 ≠ []) (hk : ∀ c ∈ bs.head?, c.1 ≠ k) :
    ∀ p ∈ (bs.flatMap (fun b => b.2.map (fun x => (b.1, x)))).head?, p.1 ≠ k := by
  cases bs with
  | nil => simp
  | cons c bs2 =>
    rcases hc : c.2 with _ | ⟨a, t⟩
    · exact absurd hc (hne c (by simp))
    · intro p hp
      simp only [List.flatMap_cons, hc, List.map_cons, List.cons_append,
        List.head?_cons, Option.mem_def, Option.some.injEq] at hp
      subst hp
      exact hk c (by simp)

theorem groupByKey_flatten {κ α : Type} [DecidableEq κ] (blocks : List (κ × List α))
    (hne : ∀ b ∈ blocks, b.2 ≠ [])
    (hch : blocks.Chain' (fun b c => b.1 ≠ c.1)) :
    groupByKey (blocks.flatMap (fun b => b.2.map (fun x => (b.1, x)))) = blocks := by
  induction blocks with
  | nil => simp [groupByKey]
  | cons b bs ih =>
    rcases hb : b.2 with _ | ⟨a, as2⟩
    · exact absurd hb (hne b (by simp))
    · have hhead : ∀ p ∈ (bs.flatMap (fun b => b.2.map (fun x => (b.1, x)))).head?, p.1 ≠ b.1 := by
        apply flatten_head_key b.1 bs (fun c hc => hne c (List.mem_cons_of_mem b hc))
        intro c hc
        cases bs with
        | nil => simp at hc
        | cons c2 bs2 =>
          simp only [List.head?_cons, Option.mem_def, Option.some.injEq] at hc
          subst hc
          exact (List.chain'_cons.mp hch).1.symm
      have hch2 : bs.Chain' (fun b c => b.1 ≠ c.1) := hch.tail
      rw [List.flatMap_cons, hb, groupByKey_chunk b.1 a as2 _ hhead,
        ih (fun c hc => hne c (List.mem_cons_of_mem b hc)) hch2, ← hb, Prod.mk.eta]

/-- Claim C3: blockwise_sampling down-samples trialwise data to blockwise
data: when the input rows group into contiguous blocks of trials sharing
one label and one run id (adjacent blocks having distinct keys and each
block nonempty), it returns exactly one output row per block, equal to
the mean of the block of trialwise rows, together with one label and one
run id per block, equal to those shared by the block of trials. -/
theorem blockwise_sampling_blocks (blocks : List ((ℤ × ℤ) × List (List ℚ)))
    (hne : ∀ b ∈ blocks, b.2 ≠ [])
    (hch : blocks.Chain' (fun b c => b.1 ≠ c.1)) :
    blockwise_sampling
        (blocks.flatMap (fun b => b.2))
        (blocks.flatMap (fun b => List.replicate b.2.length b.1.1))
        (blocks.flatMap (fun b => List.replicate b.2.length b.1.2))
      = (blocks.map (fun b => vecMean b.2),
         blocks.map (fun b => b.1.1),
         blocks.map (fun b => b.1.2)) := by
  unfold blockwise_sampling
  have h1 : ((blocks.flatMap (fun b => List.replicate b.2.length b.1.1)).zip
        (blocks.flatMap (fun b => List.replicate b.2.length b.1.2)))
      = blocks.flatMap (fun b => List.replicate b.2.length b.1) := by
    rw [zip_flatMap _ _ _ (fun s => by simp)]
    apply congrArg
    funext b
    rw [zip_replicate_replicate, Prod.mk.eta]
  have h2 : ((blocks.flatMap (fun b => List.replicate b.2.length b.1)).zip
        (blocks.flatMap (fun b => b.2)))
      = blocks.flatMap (fun b => b.2.map (fun x => (b.1, x))) := by
    rw [zip_flatMap _ _ _ (fun s => by simp)]
    apply congrArg
    funext b
    exact zip_replicate_left b.1 b.2
  rw [h1, h2, groupByKey_flatten blocks hne hch]

/-- Claim C3 witness: two blocks of trials, of sizes two and one, are
down-sampled to two blockwise rows carrying the block means and the
shared labels and run ids. -/
theorem blockwise_sampling_blocks_witness :
    blockwise_sampling
        (([((1, 0), [[1, 3], [3, 5]]), ((2, 0), [[0, 2]])]
            : List ((ℤ × ℤ) × List (List ℚ))).flatMap (fun b => b.2))
        (([((1, 0), [[1, 3], [3, 5]]), ((2, 0), [[0, 2]])]
            : List ((ℤ × ℤ) × List (List ℚ))).flatMap
          (fun b => List.replicate b.2.length b.1.1))
        (([((1, 0), [[1, 3], [3, 5]]), ((2, 0), [[0, 2]])]
            : List ((ℤ × ℤ) × List (List ℚ))).flatMap
          (fun b => List.replicate b.2.length b.1.2))
      = (([((1, 0), [[1, 3], [3, 5]]), ((2, 0), [[0, 2]])]
            : List ((ℤ × ℤ) × List (List ℚ))).map (fun b => vecMean b.2),
         ([((1, 0), [[1, 3], [3, 5]]), ((2, 0), [[0, 2]])]
            : List ((ℤ × ℤ) × List (List ℚ))).map (fun b => b.1.1),
         ([((1, 0), [[1, 3], [3, 5]]), ((2, 0), [[0, 2]])]
            : List ((ℤ × ℤ) × List (List ℚ))).map (fun b => b.1.2)) :=
  blockwise_sampling_blocks
    [((1, 0), [[1, 3], [3, 5]]), ((2, 0), [[0, 2]])]
    (by simp) (by simp)

/-! Claim theorems for statelessness, the loaders, the bounded loops,
the Exercise 7 cells and the sequential machine. -/

/-- Claim C4: the preprocessing transforms are stateless.  The
notebook-04 preprocessing cell leaves the world (every file and all
state outside the notebook variables) unchanged, and its outputs do not
depend on the prior values of any notebook variable; it also keeps the
loaded input arrays intact.  Likewise the notebook-02 z-scoring cell
leaves maskedData unchanged, and its output depends only on
maskedData. -/
theorem preprocessing_transforms_stateless (w : World) (sub : String)
    (v v' : PipeVars) (s s' : NB2State) :
    (runPreprocCell w sub v).1 = w ∧
    (runPreprocCell w sub v).2 = (runPreprocCell w sub v').2 ∧
    (runPreprocCell w sub v).2.stim_label_allruns
      = (load_labels w vdc_data_dir sub).1 ∧
    (runPreprocCell w sub v).2.epi_mask_data_all
      = (load_data w vdc_data_dir sub "FFA").1.1 ∧
    (zscoreCell s).maskedData = s.maskedData ∧
    (s.maskedData = s'.maskedData →
      (zscoreCell s).maskedData_zscore = (zscoreCell s').maskedData_zscore) := by
  refine ⟨rfl, rfl, rfl, rfl, rfl, fun h => ?_⟩
  simp [zscoreCell, h]

/-- Claim C4 witness: two notebook-02 states agreeing on maskedData but
nothing else give the z-scoring cell equal outputs. -/
theorem preprocessing_transforms_stateless_witness :
    (zscoreCell ⟨[[1]], [], none, [], []⟩).maskedData_zscore
      = (zscoreCell ⟨[[1]], [], some [[2]], ["x"], [[3]]⟩).maskedData_zscore :=
  (preprocessing_transforms_stateless
    ⟨fun _ => [], fun _ => [], fun _ => []⟩ "sub-01"
    ⟨[], [], [], 0, [], [], [], [], [], [], [], [], []⟩
    ⟨[], [], [], 0, [], [], [], [], [], [], [], [], []⟩
    ⟨[[1]], [], none, [], []⟩
    ⟨[[1]], [], some [[2]], ["x"], [[3]]⟩).2.2.2.2.2 rfl

/-- Claim C7: the data loader helpers are pure read-only wrappers: each
returns the content of the file it names and leaves the world (disk and
all other program state) unchanged. -/
theorem loaders_pure_readonly (w : World)
    (sub ROI_name directory mask_name : String) (run : ℕ) :
    (load_vdc_stim_labels w sub).2 = w ∧
    (load_vdc_stim_labels w sub).1 = w.labelFiles sub ∧
    (load_vdc_mask w ROI_name sub).2 = w ∧
    (load_vdc_mask w ROI_name sub).1 = w.maskFiles (sub ++ "/" ++ ROI_name) ∧
    (load_vdc_epi_data w sub run).2 = w ∧
    (load_vdc_epi_data w sub run).1 = w.epiFiles (sub ++ "/run" ++ toString run) ∧
    (load_labels w directory sub).2 = w ∧
    (load_labels w directory sub).1 = w.labelFiles (directory ++ "/" ++ sub) ∧
    (load_data w directory sub mask_name).2 = w ∧
    (load_data w directory sub mask_name).1.1
      = w.epiFiles (directory ++ "/" ++ sub ++ "/" ++ mask_name) :=
  ⟨rfl, rfl, rfl, rfl, rfl, rfl, rfl, rfl, rfl, rfl⟩

theorem foldl_append_map {α β : Type} (l : List α) (f : α → β) (acc : List β) :
    l.foldl (fun a i => a ++ [f i]) acc = acc ++ l.map f := by
  induction l generalizing acc with
  | nil => simp
  | cons x xs ih =>
    simp only [List.foldl_cons, ih, List.map_cons]
    simp

/-- Claim C8: the two notebook loops range over collections fixed before
the loop starts (the conditions, the four plots): each equals a map over
an a-priori fixed finite range and runs exactly that many iterations,
so the embedded computation is total. -/
theorem notebook_loops_bounded (label_keys time_secs labels : List ℚ)
    (bold_pca : List (List ℚ)) :
    condPlotLoop label_keys time_secs labels
      = (List.range label_keys.length).map
          (scatterSeries label_keys time_secs labels) ∧
    (condPlotLoop label_keys time_secs labels).length = label_keys.length ∧
    pcaHistLoop bold_pca
      = (List.range n_plots).map
          (fun i => pcaColumn bold_pca (components_to_plot.getD i 0)) ∧
    (pcaHistLoop bold_pca).length = n_plots := by
  have h1 := foldl_append_map (List.range label_keys.length)
    (scatterSeries label_keys time_secs labels) []
  have h2 := foldl_append_map (List.range n_plots)
    (fun i => pcaColumn bold_pca (components_to_plot.getD i 0)) []
  refine ⟨?_, ?_, ?_, ?_⟩
  · rw [condPlotLoop, h1]
    simp
  · rw [condPlotLoop, h1]
    simp
  · rw [pcaHistLoop, h2]
    simp
  · rw [pcaHistLoop, h2]
    simp

/-- Claim C9: with Exercise 7 left unmodified (maskedData_normalized =
None), the plotting cell takes its else branch: it raises no error,
appends only the reminder message, and changes no other variable; and
the plotting branch can change the plots only when maskedData_normalized
is not None. -/
theorem exercise7_none_plot_cell (s t r : NB2State) :
    plotNormalizedCell (exercise7Cell s)
      = Except.ok { exercise7Cell s with printed := s.printed ++ [reminder_message] } ∧
    (plotNormalizedCell t = Except.ok r → r.plots ≠ t.plots →
      t.maskedData_normalized ≠ none) := by
  constructor
  · rfl
  · intro hok hplots hn
    apply hplots
    have hcell : plotNormalizedCell t
        = Except.ok
          { t with
            maskedData_normalized := none
            printed := t.printed ++ [reminder_message] } := by
      unfold plotNormalizedCell
      rw [hn]
    rw [hcell] at hok
    injection hok with h2
    rw [← h2]

/-- Claim C9 witness: the cell prints the reminder on a concrete state
with maskedData_normalized = None, and on a concrete state with a
non-None value it does change the plots. -/
theorem exercise7_none_plot_cell_witness :
    plotNormalizedCell (exercise7Cell ⟨[[7]], [], some [[2]], [], []⟩)
      = Except.ok { exercise7Cell (⟨[[7]], [], some [[2]], [], []⟩ : NB2State) with
          printed := ([] : List String) ++ [reminder_message] } ∧
    (⟨[[7]], [], some [[2]], [], []⟩ : NB2State).maskedData_normalized ≠ none :=
  ⟨(exercise7_none_plot_cell ⟨[[7]], [], some [[2]], [], []⟩
      ⟨[[7]], [], some [[2]], [], []⟩
      ⟨[[7]], [], some [[2]], [], [[2], [2]]⟩).1,
   (exercise7_none_plot_cell ⟨[[7]], [], some [[2]], [], []⟩
      ⟨[[7]], [], some [[2]], [], []⟩
      ⟨[[7]], [], some [[2]], [], [[2], [2]]⟩).2 rfl (by simp)⟩

/-- Claim C10: the notebook is a single sequential thread: the execution
step relation is deterministic (no interleaving can influence any
behaviour) and each step runs exactly the one cell at the program
counter and advances it by one. -/
theorem notebook_sequential_deterministic :
    (∀ c c1 c2 : ℕ × NB2State, NBStep c c1 → NBStep c c2 → c1 = c2) ∧
    (∀ c c' : ℕ × NB2State, NBStep c c' →
      c'.1 = c.1 + 1 ∧ c'.2 = (nb02Cells.getD c.1 id) c.2) := by
  constructor
  · intro c c1 c2 h1 h2
    cases h1 with
    | run pc s hpc =>
      cases h2 with
      | run _ _ _ => rfl
  · intro c c' h
    cases h with
    | run pc s hpc => exact ⟨rfl, rfl⟩

/-- Claim C10 witness: one concrete step of the machine, derived twice,
lands in the same configuration. -/
theorem notebook_sequential_deterministic_witness :
    ((1 : ℕ), (nb02Cells.getD 0 id) ⟨[], [], none, [], []⟩)
      = ((1 : ℕ), (nb02Cells.getD 0 id) ⟨[], [], none, [], []⟩) :=
  notebook_sequential_deterministic.1 (0, ⟨[], [], none, [], []⟩) _ _
    (NBStep.run 0 ⟨[], [], none, [], []⟩ (by simp [nb02Cells]))
    (NBStep.run 0 ⟨[], [], none, [], []⟩ (by simp [nb02Cells]))
